import Mathlib

/-!
Shallow embedding of the EDGAR ingestion engine (github.com/dsh2dsh/edgar)
used to settle the specification claims.

Conventions of the embedding:
* Go `time.Time` values produced by `time.Parse("2006-01-02", …)` are UTC
  midnight dates; they are embedded as `GoDate` (year, month, day) with the
  Go zero time being year 1, January 1.
* Go machine integers (`uint32`, `int`) are embedded as `Nat`/`Int` with
  explicit `% 2 ^ 32` where Go performs a conversion that can truncate.
* Fallible Go functions returning `error` are embedded with `Except`/`Option`.
* Go maps are embedded as association lists; `singleflight`-gated code is
  embedded by its sequential semantics, with an extra `Bool` result recording
  whether the guarded generator/callback was invoked.
-/

namespace Edgar

/-- Date as produced by Go `time.Parse("2006-01-02", s)`: year, month, day at
UTC midnight.  The Go zero `time.Time` corresponds to `⟨1, 1, 1⟩`. -/
structure GoDate where
  year : Nat
  month : Nat
  day : Nat
deriving DecidableEq, Repr

/-- Go zero `time.Time` (year 1, January 1). -/
def GoDate.zero : GoDate := ⟨1, 1, 1⟩

/-- Embedding of Go `time.Time.IsZero` for dates. -/
def GoDate.isZero (d : GoDate) : Bool := d = GoDate.zero

/-- Embedding of Go `time.Time.Before` (lexicographic on year, month, day). -/
def GoDate.before (a b : GoDate) : Bool :=
  a.year < b.year ||
    (a.year = b.year && (a.month < b.month ||
      (a.month = b.month && a.day < b.day)))

/-- Embedding of Go `time.Time.After`: `a.after b` iff `b.before a`. -/
def GoDate.after (a b : GoDate) : Bool := GoDate.before b a

/-- Gregorian leap-year rule, as used by Go's `time` package. -/
def isLeapYear (y : Nat) : Bool :=
  y % 4 = 0 && (y % 100 ≠ 0 || y % 400 = 0)

/-- Number of days of month `m` of year `y` (Go `time` date validation). -/
def daysInMonth (y m : Nat) : Nat :=
  if m = 2 then (if isLeapYear y then 29 else 28)
  else if m = 4 ∨ m = 6 ∨ m = 9 ∨ m = 11 then 30
  else 31

/-- Numeric value of a decimal digit character. -/
def digitVal (c : Char) : Nat := c.toNat - 48

/-- Embedding of Go `time.Parse("2006-01-02", s)`: exactly ten characters
`dddd-dd-dd`, all digit positions decimal digits, month in 1..12 and day
valid for the month (Go rejects out-of-range dates such as Feb 30).
`none` is the Go parse error. -/
def parseGoDate (s : String) : Option GoDate :=
  match s.toList with
  | [y1, y2, y3, y4, c1, m1, m2, c2, d1, d2] =>
    if c1 = '-' ∧ c2 = '-' ∧ y1.isDigit ∧ y2.isDigit ∧ y3.isDigit ∧ y4.isDigit ∧
        m1.isDigit ∧ m2.isDigit ∧ d1.isDigit ∧ d2.isDigit then
      let y := ((digitVal y1 * 10 + digitVal y2) * 10 + digitVal y3) * 10 + digitVal y4
      let m := digitVal m1 * 10 + digitVal m2
      let d := digitVal d1 * 10 + digitVal d2
      if 1 ≤ m ∧ m ≤ 12 ∧ 1 ≤ d ∧ d ≤ daysInMonth y m then some ⟨y, m, d⟩
      else none
    else none
  | _ => none

/-! ## client.FactUnit and its date parsing (src/client/facts.go) -/

/-- Embedding of `client.FactUnit`: the JSON shape of one observation.  `val`
is only copied by the code under verification, so it is embedded as `Int`. -/
structure ClientFactUnit where
  start : String
  end_ : String
  val : Int
  accn : String
  fy : Nat
  fp : String
  form : String
  filed : String
  frame : String
deriving DecidableEq, Repr

/-- Embedding of `client.FactUnit.parseDate`: an empty string yields the Go
zero time with no error; otherwise `time.Parse("2006-01-02", d)`, whose
failure is wrapped into an error mentioning the field name. -/
def clientParseDate (d field : String) : Except String GoDate :=
  if d = "" then Except.ok GoDate.zero
  else
    match parseGoDate d with
    | some t => Except.ok t
    | none => Except.error ("parse " ++ field ++ " = " ++ d ++ ": cannot parse")

/-- Embedding of `client.FactUnit.StartTime`. -/
def ClientFactUnit.startTime (f : ClientFactUnit) : Except String GoDate :=
  clientParseDate f.start "start"

/-- Embedding of `client.FactUnit.EndTime`. -/
def ClientFactUnit.endTime (f : ClientFactUnit) : Except String GoDate :=
  clientParseDate f.end_ "end"

/-- Embedding of `client.FactUnit.FiledTime`. -/
def ClientFactUnit.filedTime (f : ClientFactUnit) : Except String GoDate :=
  clientParseDate f.filed "filed"

/-- Embedding of `client.FactUnit.ParseTimes`: parse start, end and filed in
this order, short-circuiting on the first error; on success the callback
receives the three parsed times (purified here into a returned triple). -/
def ClientFactUnit.parseTimes (f : ClientFactUnit) :
    Except String (GoDate × GoDate × GoDate) :=
  match f.startTime with
  | Except.error e => Except.error e
  | Except.ok s =>
    match f.endTime with
    | Except.error e => Except.error e
    | Except.ok en =>
      match f.filedTime with
      | Except.error e => Except.error e
      | Except.ok fd => Except.ok (s, en, fd)

/-! ## repo.FactUnit (src/internal/repo/facts.go) -/

/-- Embedding of `repo.FactUnit`: the persisted shape of one observation.
`start` embeds `pgtype.Date` (`none` = SQL null), `frame` embeds
`pgtype.Text` (`none` = SQL null). -/
structure RepoFactUnit where
  cik : Nat
  factId : Nat
  unitId : Nat
  start : Option GoDate
  end_ : GoDate
  val : Int
  accn : String
  fy : Nat
  fp : String
  form : String
  filed : GoDate
  frame : Option String
deriving DecidableEq, Repr

/-- Embedding of `repo.FactUnit.WithStart`. -/
def RepoFactUnit.withStart (f : RepoFactUnit) (d : GoDate) : RepoFactUnit :=
  { f with start := some d }

/-- Embedding of `repo.FactUnit.WithFrame`. -/
def RepoFactUnit.withFrame (f : RepoFactUnit) (s : String) : RepoFactUnit :=
  { f with frame := some s }

/-- Embedding of `Upload.repoFactUnit` (src/cmd/db/upload.go): convert a
client `FactUnit` into the persisted shape.  The row is first built with the
copied scalar fields and zero times; `frame` is set when non-empty; then
`ParseTimes` fills the dates, with `WithStart` applied only to a non-zero
start time.  A parse failure is returned as an error. -/
def repoFactUnit (cik factId unitId : Nat) (cf : ClientFactUnit) :
    Except String RepoFactUnit :=
  let fact : RepoFactUnit :=
    { cik := cik, factId := factId, unitId := unitId, start := none,
      end_ := GoDate.zero, val := cf.val, accn := cf.accn, fy := cf.fy,
      fp := cf.fp, form := cf.form, filed := GoDate.zero, frame := none }
  let fact := if cf.frame ≠ "" then fact.withFrame cf.frame else fact
  match cf.parseTimes with
  | Except.error e =>
    Except.error ("convert FactUnit from client to repo: " ++ e)
  | Except.ok (s, e, fd) =>
    let fact := if ¬ s.isZero then fact.withStart s else fact
    Except.ok { fact with end_ := e, filed := fd }

/-! ## Index file records (src/client/index/item.go, file.go) -/

/-- Embedding of Go `strconv.ParseUint(s, 10, 32)`: a non-empty all-digit
string whose value fits in 32 bits; anything else is a parse error. -/
def parseUint32 (s : String) : Option Nat :=
  if s ≠ "" ∧ s.toList.all Char.isDigit then
    let v := s.toList.foldl (fun a c => a * 10 + digitVal c) 0
    if v < 2 ^ 32 then some v else none
  else none

/-- Embedding of `index.Item`: one parsed record of a master index file. -/
structure IndexItem where
  cik : Nat
  filed : GoDate
  companyName : String
  formType : String
  filename : String
deriving DecidableEq, Repr

/-- Embedding of `index.Item.parseCIK` (pure form). -/
def itemParseCIK (s : String) : Except String Nat :=
  match parseUint32 s with
  | some v => Except.ok v
  | none => Except.error ("failed parse " ++ s ++ " as CIK")

/-- Embedding of `index.Item.parseFiled` (pure form): layout `"2006-01-02"`. -/
def itemParseFiled (s : String) : Except String GoDate :=
  match parseGoDate s with
  | some t => Except.ok t
  | none => Except.error ("failed parse " ++ s ++ " as Date Filed")

/-- Embedding of `index.callIterFunc` (src/client/index/file.go): a record
with fewer than 5 fields is an error; otherwise the item takes fields 1, 2, 4
verbatim as strings and parses field 0 as CIK and field 3 as Date Filed. -/
def callIterFunc (r : List String) : Except String IndexItem :=
  if r.length < 5 then
    Except.error "unexpected num of fields in record"
  else
    match itemParseCIK (r.getD 0 "") with
    | Except.error e => Except.error e
    | Except.ok cik =>
      match itemParseFiled (r.getD 3 "") with
      | Except.error e => Except.error e
      | Except.ok filed =>
        Except.ok { cik := cik, filed := filed, companyName := r.getD 1 "",
                    formType := r.getD 2 "", filename := r.getD 4 "" }

/-- Embedding of `index.File.Iterate` specialised to collecting the parsed
items: each record goes through `callIterFunc` and the first error
short-circuits the iteration. -/
def iterateRecords (rs : List (List String)) : Except String (List IndexItem) :=
  match rs with
  | [] => Except.ok []
  | r :: rest =>
    match callIterFunc r with
    | Except.error e => Except.error e
    | Except.ok item =>
      match iterateRecords rest with
      | Except.error e => Except.error e
      | Except.ok items => Except.ok (item :: items)

/-! ## Quarter cursor (src/unnamed/part_009, client.Qtr) -/

/-- Embedding of `client.Qtr`: a (year, quarter) cursor. -/
structure Qtr where
  year : Nat
  qtr : Nat
deriving DecidableEq, Repr

/-- Embedding of `client.monthQtr`. -/
def monthQtr (month : Nat) : Nat :=
  if month % 3 > 0 then month / 3 + 1 else month / 3

/-- Embedding of `client.NewQtr`, taking the year and month of the date. -/
def NewQtr (year month : Nat) : Qtr := ⟨year, monthQtr month⟩

/-- Embedding of `client.Qtr.QTR`. -/
def Qtr.qtrString (q : Qtr) : String := "QTR" ++ toString q.qtr

/-- Embedding of `client.Qtr.Path`: `filepath.Join` of the year and the
quarter component (both non-empty and clean, so the join is `"/"`). -/
def Qtr.path (q : Qtr) : String := toString q.year ++ "/" ++ q.qtrString

/-- Embedding of `client.Qtr.Next`: advance to the next quarter (wrapping to
Q1 of the next year after Q4) and return the new cursor with its path. -/
def Qtr.next (q : Qtr) : Qtr × String :=
  let q2 := if q.qtr = 4 then Qtr.mk (q.year + 1) 1 else Qtr.mk q.year (q.qtr + 1)
  (q2, q2.path)

/-! ## Known-facts cache (src/cmd/db/facts.go) -/

/-- Embedding of `db.knownFact`: fact id, the primary label/description hash
pair, and the "more labels" set, embedded as the association list mirroring
`map[uint64]map[uint64]struct{}`. -/
structure KnownFact where
  id : Nat
  labelHash : Nat
  descrHash : Nat
  moreLabels : List (Nat × List Nat)
deriving DecidableEq, Repr

/-- Embedding of `db.newKnownFact`. -/
def newKnownFact (id labelHash descrHash : Nat) : KnownFact :=
  ⟨id, labelHash, descrHash, []⟩

/-- Lookup of the inner descr-hash set of `moreLabels` for a label hash. -/
def lookupDescrs (ml : List (Nat × List Nat)) (lh : Nat) : Option (List Nat) :=
  match ml.find? (fun p => p.1 == lh) with
  | some p => some p.2
  | none => none

/-- Membership of a `(labelHash, descrHash)` pair in the "more labels" set. -/
def hasMoreLabel (f : KnownFact) (lh dh : Nat) : Bool :=
  match lookupDescrs f.moreLabels lh with
  | some ds => ds.contains dh
  | none => false

/-- Embedding of `db.knownFact.AddMoreLabel`: insert the pair into the nested
map (allocating the outer map or the inner set as needed). -/
def KnownFact.addMoreLabel (f : KnownFact) (lh dh : Nat) : KnownFact :=
  if f.moreLabels.isEmpty then { f with moreLabels := [(lh, [dh])] }
  else
    match lookupDescrs f.moreLabels lh with
    | none => { f with moreLabels := f.moreLabels ++ [(lh, [dh])] }
    | some _ =>
      { f with moreLabels := (f.moreLabels.map
          (fun p => if p.1 == lh then
            (p.1, if p.2.contains dh then p.2 else p.2 ++ [dh]) else p)) }

/-- Embedding of `db.knownFact.AddLabel`.  `callbackErr` is the outcome of
the `recordLabel` callback (`none` = success).  The result is the returned
error, the fact after the call, and whether the callback was invoked. -/
def KnownFact.addLabel (f : KnownFact) (lh dh : Nat)
    (callbackErr : Option String) : Option String × KnownFact × Bool :=
  if f.labelHash == lh && f.descrHash == dh then (none, f, false)
  else if !f.moreLabels.isEmpty && hasMoreLabel f lh dh then (none, f, false)
  else
    match callbackErr with
    | some e => (some ("callback: " ++ e), f, true)
    | none => (none, f.addMoreLabel lh dh, true)

/-- Embedding of `db.facts`: the map from fact key to known fact, as an
association list (insertion at the head mirrors map insertion). -/
structure FactsState where
  knownFacts : List (String × KnownFact)
deriving DecidableEq, Repr

/-- Embedding of `db.facts.Fact`: map lookup under the reader lock. -/
def FactsState.fact (fs : FactsState) (key : String) : Option KnownFact :=
  match fs.knownFacts.find? (fun p => p.1 == key) with
  | some p => some p.2
  | none => none

/-- Embedding of `db.facts.Create` in its sequential semantics (the
single-flight group serialises callers per key): re-check the map, run the
generator, and install the new entry on success.  `gen` is the outcome of
`genFactId()`.  The result is the returned entry or error, the state after
the call, and whether the generator was invoked. -/
def FactsState.create (fs : FactsState) (key : String) (lh dh : Nat)
    (gen : Except String Nat) : Except String KnownFact × FactsState × Bool :=
  match fs.fact key with
  | some f => (Except.ok f, fs, false)
  | none =>
    match gen with
    | Except.error e => (Except.error e, fs, true)
    | Except.ok factId =>
      let f := newKnownFact factId lh dh
      (Except.ok f, ⟨(key, f) :: fs.knownFacts⟩, true)

/-! ## Retrying company facts (src/cmd/db/upload.go) -/

/-- Embedding of `db.retryNum`. -/
def retryNum : Nat := 2

/-- Embedding of the client errors observed by the retry loop: an
`UnexpectedStatusError` with its HTTP status code and status text, or any
other error. -/
inductive ClientErr where
  | status (code : Nat) (statusText : String)
  | other (msg : String)
deriving DecidableEq, Repr

/-- Error text of a `ClientErr` (`UnexpectedStatusError.Error`). -/
def ClientErr.message : ClientErr → String
  | .status _ s => "unexpected status code (>299): " ++ s
  | .other m => m

/-- Status code of a `ClientErr` when it is an `UnexpectedStatusError`. -/
def ClientErr.statusCode : ClientErr → Option Nat
  | .status c _ => some c
  | .other _ => none

/-- Errors returned by `Upload.retryCompanyFacts`/`Upload.retryFunc`. -/
inductive UploadErr where
  | stopRetrying (cause : String)
  | fetchFailed (cik : Nat) (cause : ClientErr)
  | triedManyTimes (cause : Option ClientErr)
deriving DecidableEq, Repr

/-- Error text of an `UploadErr`, mirroring the `fmt.Errorf` format strings
in `Upload.retryFunc` and `Upload.retryCompanyFacts` (including the source's
literal spelling "tried may times"). -/
def UploadErr.message : UploadErr → String
  | .stopRetrying c => "stop retrying: " ++ c
  | .fetchFailed cik c =>
    "failed fetch company facts (CIK=" ++ toString cik ++ "): " ++ c.message
  | .triedManyTimes c =>
    "tried may times fetch company facts: " ++
      (match c with | some e => e.message | none => "")

/-- Embedding of the loop of `Upload.retryFunc` specialised to the closure of
`Upload.retryCompanyFacts`.  `cancelled i` is whether `ctx.Err()` is non-nil
at the top of iteration `i`; `attempts i` is the outcome of the `i`-th
`Client.CompanyFacts` call (payload abstracted to `Nat`); `fuel` is the
number of remaining iterations; `skipErr` accumulates the last 504 error.
When the fuel runs out the wrapper turns the exhausted retries into the
"tried may times" error. -/
def retryGo (cancelled : Nat → Bool) (attempts : Nat → Except ClientErr Nat)
    (cik : Nat) : Nat → Nat → Option ClientErr → Except UploadErr Nat
  | _, 0, skipErr => Except.error (UploadErr.triedManyTimes skipErr)
  | i, fuel + 1, _ =>
    if cancelled i then Except.error (UploadErr.stopRetrying "context canceled")
    else
      match attempts i with
      | Except.ok facts => Except.ok facts
      | Except.error e =>
        if e.statusCode = some 504 then retryGo cancelled attempts cik (i + 1) fuel (some e)
        else Except.error (UploadErr.fetchFailed cik e)

/-- Embedding of `Upload.retryCompanyFacts` with `tries = retryNum`. -/
def retryCompanyFacts (cancelled : Nat → Bool)
    (attempts : Nat → Except ClientErr Nat) (cik : Nat) : Except UploadErr Nat :=
  retryGo cancelled attempts cik 0 retryNum none

/-! ## Company preload (src/cmd/db/upload.go) -/

/-- Embedding of `client.CompanyTicker`. -/
structure CompanyTicker where
  cik : Nat
  ticker : String
  title : String
deriving DecidableEq, Repr

/-- Embedding of `Upload.loadedCompany`: membership of the CIK in the keys of
the preloaded `lastFiled` map. -/
def loadedCompany (lastFiled : List Nat) (cik : Nat) : Bool :=
  lastFiled.contains cik

/-- Embedding of Go `cmp.Compare` on CIKs. -/
def cmpNat (a b : Nat) : Int :=
  if a < b then -1 else if b < a then 1 else 0

/-- Embedding of the comparison function of `Upload.sortCompanies`: loaded
companies before unknown ones, each group by CIK ascending. -/
def cmpCompany (lastFiled : List Nat) (a b : CompanyTicker) : Int :=
  if loadedCompany lastFiled a.cik && loadedCompany lastFiled b.cik then
    cmpNat a.cik b.cik
  else if !loadedCompany lastFiled a.cik && !loadedCompany lastFiled b.cik then
    cmpNat a.cik b.cik
  else if !loadedCompany lastFiled b.cik then -1
  else 1

/-- Boolean "less or equal" induced by `cmpCompany`, used to instantiate the
sort. -/
def leCompany (lastFiled : List Nat) (a b : CompanyTicker) : Bool :=
  cmpCompany lastFiled a b ≤ 0

/-- Tail of the embedding of `slices.CompactFunc` keyed by CIK: `prev` is the
last kept element. -/
def compactGo (prev : CompanyTicker) : List CompanyTicker → List CompanyTicker
  | [] => []
  | x :: xs => if x.cik = prev.cik then compactGo prev xs else x :: compactGo x xs

/-- Embedding of `slices.CompactFunc(companies, same CIK)`: collapse each
consecutive run of equal-CIK elements to its first element. -/
def compactCIK : List CompanyTicker → List CompanyTicker
  | [] => []
  | x :: xs => x :: compactGo x xs

/-- Embedding of `Upload.sortCompanies`: sort by `cmpCompany`, then compact
consecutive duplicate CIKs. -/
def sortCompanies (lastFiled : List Nat) (companies : List CompanyTicker) :
    List CompanyTicker :=
  compactCIK (companies.mergeSort (leCompany lastFiled))

/-- Embedding of `Upload.unknownCompanies`: find the first element that is
not already loaded and keep the suffix from there (`nil` when every company
is loaded). -/
def unknownCompanies (lastFiled : List Nat) (companies : List CompanyTicker) :
    List CompanyTicker :=
  let cs := sortCompanies lastFiled companies
  match cs.findIdx? (fun c => !loadedCompany lastFiled c.cik) with
  | none => []
  | some i => cs.drop i

/-! ## Incremental update classification (src/cmd/db/update.go) -/

/-- Embedding of Go `uint32(i)` for an `int` value. -/
def goUInt32 (i : Int) : Nat := (i % (2 ^ 32 : Int)).toNat

/-- Embedding of `slices.IndexFunc(facts, Filed.After(lastFiled))`: the Go
index, `-1` when no element matches. -/
def goIndexAfter (facts : List RepoFactUnit) (lastFiled : GoDate) : Int :=
  match facts.findIdx? (fun f => f.filed.after lastFiled) with
  | some i => (i : Int)
  | none => -1

/-- Embedding of `Upload.repoFactsUpdate` after a successful fetch:
`lastCnt` is `FiledCounts(cik)[lastFiled]` and `facts` the fresh sorted
list.  Returns `replaceFiled` (zero time means "copy") and the facts to
write; the `none` result is the Go panic of `facts[startIdx:]` when
`startIdx` is `-1` yet `uint32(startIdx) == lastCnt`. -/
def repoFactsUpdate (lastFiled : GoDate) (lastCnt : Nat)
    (facts : List RepoFactUnit) : Option (GoDate × List RepoFactUnit) :=
  if lastCnt = facts.length % 2 ^ 32 then some (GoDate.zero, [])
  else
    let startIdx := goIndexAfter facts lastFiled
    if goUInt32 startIdx = lastCnt then
      if startIdx < 0 then none
      else some (GoDate.zero, facts.drop startIdx.toNat)
    else some (lastFiled, facts)

/-- The store call performed by `Upload.updateCompanyFacts`. -/
inductive StoreOp where
  | noop
  | copy (length : Nat) (facts : List RepoFactUnit)
  | replace (cik : Nat) (lastFiled : GoDate) (length : Nat)
      (facts : List RepoFactUnit)
deriving DecidableEq, Repr

/-- Embedding of `Upload.updateCompanyFacts` after a successful
`repoFactsUpdate`: an empty result list is a no-op; a zero `replaceFiled`
selects `CopyFactUnits`; otherwise `ReplaceFactUnits`. -/
def updateCompanyFacts (cik : Nat) (lastFiled : GoDate) (lastCnt : Nat)
    (freshFacts : List RepoFactUnit) : Option StoreOp :=
  match repoFactsUpdate lastFiled lastCnt freshFacts with
  | none => none
  | some (replaceFiled, facts) =>
    if facts.length = 0 then some StoreOp.noop
    else if replaceFiled.isZero then some (StoreOp.copy facts.length facts)
    else some (StoreOp.replace cik replaceFiled facts.length facts)

/-! ## Fact keys (src/cmd/db/upload.go) -/

/-- Embedding of `Upload.makeFactKey`: `strings.Join([]string{tax, name}, ":")`. -/
def makeFactKey (tax name : String) : String := tax ++ ":" ++ name

/-! ## Theorems -/

/-- Path of a quarter cursor, with the string literals merged. -/
lemma qtr_path_eq (q : Qtr) :
    q.path = toString q.year ++ "/QTR" ++ toString q.qtr := by
  have h : "/" ++ "QTR" = "/QTR" := rfl
  show toString q.year ++ "/" ++ ("QTR" ++ toString q.qtr) =
    toString q.year ++ "/QTR" ++ toString q.qtr
  rw [String.append_assoc, ← String.append_assoc "/" "QTR", h,
    ← String.append_assoc]

/-- C7: for a date with month `m ∈ [1,12]`, the quarter cursor holds quarter
`⌈m/3⌉ = (m+2)/3`; `Path()` renders `"YYYY/QTRn"` from the year and quarter;
and `Next()` advances to the following quarter, rolling from Q4 of year `Y`
to Q1 of year `Y+1`, returning the new path. -/
theorem qtr_c7 (y m : Nat) (h1 : 1 ≤ m) (h2 : m ≤ 12) :
    (NewQtr y m).qtr = (m + 2) / 3 ∧
    (NewQtr y m).path = toString y ++ "/QTR" ++ toString ((m + 2) / 3) ∧
    (∀ q : Qtr, q.qtr = 4 →
      q.next = (⟨q.year + 1, 1⟩,
        toString (q.year + 1) ++ "/QTR" ++ toString (1 : Nat))) ∧
    (∀ q : Qtr, q.qtr ≠ 4 →
      q.next = (⟨q.year, q.qtr + 1⟩,
        toString q.year ++ "/QTR" ++ toString (q.qtr + 1))) := by
  have hq : monthQtr m = (m + 2) / 3 := by
    unfold monthQtr; split <;> omega
  refine ⟨hq, ?_, ?_, ?_⟩
  · rw [qtr_path_eq]
    show toString y ++ "/QTR" ++ toString (monthQtr m) = _
    rw [hq]
  · intro q h4
    have e : q.next = (⟨q.year + 1, 1⟩, (Qtr.mk (q.year + 1) 1).path) := by
      simp [Qtr.next, h4]
    rw [e, qtr_path_eq]
  · intro q h4
    have e : q.next = (⟨q.year, q.qtr + 1⟩, (Qtr.mk q.year (q.qtr + 1)).path) := by
      simp [Qtr.next, h4]
    rw [e, qtr_path_eq]

/-- Witness for C7 at the concrete date 2023-10-25 (quarter 4 of 2023). -/
theorem qtr_c7_witness :
    (NewQtr 2023 10).qtr = 4 ∧ (NewQtr 2023 10).path = "2023/QTR4" ∧
    (NewQtr 2023 10).next = (⟨2024, 1⟩, "2024/QTR1") := by
  have h := qtr_c7 2023 10 (by decide) (by decide)
  refine ⟨by decide, ?_, ?_⟩
  · have := h.2.1
    simpa using this
  · have h4 : (NewQtr 2023 10).qtr = 4 := by decide
    have := h.2.2.1 (NewQtr 2023 10) h4
    simpa using this

/-- C10: the fact key `tax ++ ":" ++ name` is not injective: the two distinct
inputs `("us-gaap:extra", "Item")` and `("us-gaap", "extra:Item")` map to the
same key, so a facts cache holding that key answers both inputs with the same
cached fact (hence `addFact` returns the same fact id for both). -/
theorem makeFactKey_c10 :
    makeFactKey "us-gaap:extra" "Item" = makeFactKey "us-gaap" "extra:Item" ∧
    ("us-gaap:extra", "Item") ≠ (("us-gaap", "extra:Item") : String × String) ∧
    FactsState.fact ⟨[("us-gaap:extra:Item", newKnownFact 7 11 13)]⟩
      (makeFactKey "us-gaap:extra" "Item") = some (newKnownFact 7 11 13) ∧
    FactsState.fact ⟨[("us-gaap:extra:Item", newKnownFact 7 11 13)]⟩
      (makeFactKey "us-gaap" "extra:Item") = some (newKnownFact 7 11 13) := by
  refine ⟨rfl, by decide, rfl, rfl⟩

/-- C5 (code bug): with two attempts both failing with HTTP 504 the retry
wrapper returns the last 504 wrapped in an error whose text begins with the
source's literal "tried may times fetch company facts" — not the intended
"tried many times fetch company facts".  The other behaviours of the claim
are exercised at concrete inputs: a 504 followed by a success yields the
facts of the successful attempt, and a third attempt is never consulted. -/
theorem retryCompanyFacts_c5_bug :
    retryCompanyFacts (fun _ => false)
        (fun _ => Except.error (ClientErr.status 504 "504 Gateway Timeout"))
        320193 =
      Except.error (UploadErr.triedManyTimes
        (some (ClientErr.status 504 "504 Gateway Timeout"))) ∧
    (UploadErr.triedManyTimes
        (some (ClientErr.status 504 "504 Gateway Timeout"))).message =
      "tried may times fetch company facts: " ++
        "unexpected status code (>299): 504 Gateway Timeout" ∧
    (UploadErr.triedManyTimes
        (some (ClientErr.status 504 "504 Gateway Timeout"))).message ≠
      "tried many times fetch company facts: " ++
        "unexpected status code (>299): 504 Gateway Timeout" ∧
    retryCompanyFacts (fun _ => false)
        (fun i => if i = 0 then
            Except.error (ClientErr.status 504 "504 Gateway Timeout")
          else Except.ok 42) 320193 = Except.ok 42 ∧
    retryCompanyFacts (fun _ => false)
        (fun i => if i < 2 then
            Except.error (ClientErr.status 504 "504 Gateway Timeout")
          else Except.ok 42) 320193 =
      Except.error (UploadErr.triedManyTimes
        (some (ClientErr.status 504 "504 Gateway Timeout"))) := by
  refine ⟨rfl, rfl, by decide, rfl, rfl⟩

/-- An empty date string parses to the Go zero time without error. -/
lemma clientParseDate_empty (field : String) :
    clientParseDate "" field = Except.ok GoDate.zero := rfl

/-- A successful layout parse passes through `clientParseDate`. -/
lemma clientParseDate_some (d field : String) (t : GoDate)
    (h : parseGoDate d = some t) : clientParseDate d field = Except.ok t := by
  unfold clientParseDate
  by_cases hd : d = ""
  · subst hd; simp [parseGoDate] at h
  · rw [if_neg hd, h]

/-- A failing layout parse of a non-empty string is an error. -/
lemma clientParseDate_none (d field : String) (hne : d ≠ "")
    (h : parseGoDate d = none) :
    clientParseDate d field =
      Except.error ("parse " ++ field ++ " = " ++ d ++ ": cannot parse") := by
  unfold clientParseDate
  rw [if_neg hne, h]

/-- Characterisation of `ParseTimes` on three successful parses. -/
lemma parseTimes_eq_ok (cf : ClientFactUnit) (st en fd : GoDate)
    (hs : cf.startTime = Except.ok st) (he : cf.endTime = Except.ok en)
    (hf : cf.filedTime = Except.ok fd) :
    cf.parseTimes = Except.ok (st, en, fd) := by
  unfold ClientFactUnit.parseTimes
  rw [hs, he, hf]

/-- `ParseTimes` fails when the start parse fails. -/
lemma parseTimes_err_start (cf : ClientFactUnit) (e : String)
    (h : cf.startTime = Except.error e) : cf.parseTimes = Except.error e := by
  unfold ClientFactUnit.parseTimes
  rw [h]

/-- `ParseTimes` fails when the end parse fails. -/
lemma parseTimes_err_end (cf : ClientFactUnit) (st : GoDate) (e : String)
    (hs : cf.startTime = Except.ok st) (h : cf.endTime = Except.error e) :
    cf.parseTimes = Except.error e := by
  unfold ClientFactUnit.parseTimes
  rw [hs, h]

/-- `ParseTimes` fails when the filed parse fails. -/
lemma parseTimes_err_filed (cf : ClientFactUnit) (st en : GoDate) (e : String)
    (hs : cf.startTime = Except.ok st) (he : cf.endTime = Except.ok en)
    (h : cf.filedTime = Except.error e) : cf.parseTimes = Except.error e := by
  unfold ClientFactUnit.parseTimes
  rw [hs, he, h]

/-- Characterisation of `Upload.repoFactUnit` when all three dates parse. -/
lemma repoFactUnit_ok_char (cik factId unitId : Nat) (cf : ClientFactUnit)
    (st en fd : GoDate) (hs : cf.startTime = Except.ok st)
    (he : cf.endTime = Except.ok en) (hf : cf.filedTime = Except.ok fd) :
    repoFactUnit cik factId unitId cf = Except.ok
      { cik := cik, factId := factId, unitId := unitId,
        start := if st.isZero then none else some st,
        end_ := en, val := cf.val, accn := cf.accn, fy := cf.fy, fp := cf.fp,
        form := cf.form, filed := fd,
        frame := if cf.frame = "" then none else some cf.frame } := by
  unfold repoFactUnit
  rw [parseTimes_eq_ok cf st en fd hs he hf]
  by_cases hfr : cf.frame = "" <;> by_cases hz : st.isZero = true <;>
    simp [hfr, hz, RepoFactUnit.withFrame, RepoFactUnit.withStart]

/-- `Upload.repoFactUnit` fails when `ParseTimes` fails. -/
lemma repoFactUnit_err_char (cik factId unitId : Nat) (cf : ClientFactUnit)
    (e : String) (h : cf.parseTimes = Except.error e) :
    repoFactUnit cik factId unitId cf =
      Except.error ("convert FactUnit from client to repo: " ++ e) := by
  unfold repoFactUnit
  rw [h]

/-- A successful conversion implies all three date fields parsed. -/
lemma repoFactUnit_ok_inv (cik factId unitId : Nat) (cf : ClientFactUnit)
    (r : RepoFactUnit) (h : repoFactUnit cik factId unitId cf = Except.ok r) :
    ∃ st en fd, cf.startTime = Except.ok st ∧ cf.endTime = Except.ok en ∧
      cf.filedTime = Except.ok fd := by
  cases hs : cf.startTime with
  | error e =>
    rw [repoFactUnit_err_char cik factId unitId cf e
      (parseTimes_err_start cf e hs)] at h
    exact absurd h (by simp)
  | ok st =>
    cases he : cf.endTime with
    | error e =>
      rw [repoFactUnit_err_char cik factId unitId cf e
        (parseTimes_err_end cf st e hs he)] at h
      exact absurd h (by simp)
    | ok en =>
      cases hf : cf.filedTime with
      | error e =>
        rw [repoFactUnit_err_char cik factId unitId cf e
          (parseTimes_err_filed cf st en e hs he hf)] at h
        exact absurd h (by simp)
      | ok fd => exact ⟨st, en, fd, rfl, rfl, rfl⟩

/-- C1 (counterexample): a client fact with an empty `end` converts without
error — the persisted row simply carries the zero time in `end` — whereas the
claim says an empty `end` (or `filed`) makes the conversion return an error. -/
theorem repoFactUnit_c1_counterexample :
    repoFactUnit 320193 1 2
      { start := "2008-09-27", end_ := "", val := 5520000000,
        accn := "0001193125-09-153165", fy := 2009, fp := "Q3", form := "10-Q",
        filed := "2009-07-22", frame := "CY2008Q3I" } =
      Except.ok
        { cik := 320193, factId := 1, unitId := 2, start := some ⟨2008, 9, 27⟩,
          end_ := GoDate.zero, val := 5520000000,
          accn := "0001193125-09-153165", fy := 2009, fp := "Q3",
          form := "10-Q", filed := ⟨2009, 7, 22⟩,
          frame := some "CY2008Q3I" } := by
  rfl

/-- C1 (amended): `repoFactUnit` parses `start`, `end` and `filed` with the
layout `"2006-01-02"` (UTC); an empty `start` yields a null persisted
`start`; an empty `end` or `filed` is NOT an error — the persisted field is
the Go zero time; any non-empty unparseable date makes the conversion return
an error (no row is produced). -/
theorem repoFactUnit_c1_amended (cik factId unitId : Nat) (cf : ClientFactUnit) :
    (∀ st en fd, cf.startTime = Except.ok st → cf.endTime = Except.ok en →
      cf.filedTime = Except.ok fd →
      repoFactUnit cik factId unitId cf = Except.ok
        { cik := cik, factId := factId, unitId := unitId,
          start := if st.isZero then none else some st,
          end_ := en, val := cf.val, accn := cf.accn, fy := cf.fy, fp := cf.fp,
          form := cf.form, filed := fd,
          frame := if cf.frame = "" then none else some cf.frame }) ∧
    (cf.start = "" → ∀ r, repoFactUnit cik factId unitId cf = Except.ok r →
      r.start = none) ∧
    (∀ r, repoFactUnit cik factId unitId cf = Except.ok r →
      (cf.end_ = "" → r.end_ = GoDate.zero) ∧
      (cf.filed = "" → r.filed = GoDate.zero)) ∧
    (((cf.start ≠ "" ∧ parseGoDate cf.start = none) ∨
      (cf.end_ ≠ "" ∧ parseGoDate cf.end_ = none) ∨
      (cf.filed ≠ "" ∧ parseGoDate cf.filed = none)) →
      ∃ e, repoFactUnit cik factId unitId cf = Except.error e) := by
  refine ⟨fun st en fd hs he hf =>
    repoFactUnit_ok_char cik factId unitId cf st en fd hs he hf, ?_, ?_, ?_⟩
  · intro h0 r hr
    obtain ⟨st, en, fd, hs, he, hf⟩ :=
      repoFactUnit_ok_inv cik factId unitId cf r hr
    have hsz : cf.startTime = Except.ok GoDate.zero := by
      unfold ClientFactUnit.startTime
      rw [h0]
      exact clientParseDate_empty _
    rw [repoFactUnit_ok_char cik factId unitId cf GoDate.zero en fd hsz he hf]
      at hr
    injection hr with hr
    rw [← hr]
    simp [GoDate.isZero]
  · intro r hr
    obtain ⟨st, en, fd, hs, he, hf⟩ :=
      repoFactUnit_ok_inv cik factId unitId cf r hr
    rw [repoFactUnit_ok_char cik factId unitId cf st en fd hs he hf] at hr
    injection hr with hr
    constructor
    · intro h0
      have hez : cf.endTime = Except.ok GoDate.zero := by
        unfold ClientFactUnit.endTime
        rw [h0]
        exact clientParseDate_empty _
      rw [hez] at he
      injection he with he
      rw [← hr, ← he]
    · intro h0
      have hfz : cf.filedTime = Except.ok GoDate.zero := by
        unfold ClientFactUnit.filedTime
        rw [h0]
        exact clientParseDate_empty _
      rw [hfz] at hf
      injection hf with hf
      rw [← hr, ← hf]
  · intro hbad
    rcases hbad with ⟨hne, hp⟩ | ⟨hne, hp⟩ | ⟨hne, hp⟩
    · have hs : cf.startTime = Except.error _ :=
        clientParseDate_none cf.start "start" hne hp
      exact ⟨_, repoFactUnit_err_char cik factId unitId cf _
        (parseTimes_err_start cf _ hs)⟩
    · cases hs : cf.startTime with
      | error e =>
        exact ⟨_, repoFactUnit_err_char cik factId unitId cf _
          (parseTimes_err_start cf _ hs)⟩
      | ok st =>
        have he : cf.endTime = Except.error _ :=
          clientParseDate_none cf.end_ "end" hne hp
        exact ⟨_, repoFactUnit_err_char cik factId unitId cf _
          (parseTimes_err_end cf st _ hs he)⟩
    · cases hs : cf.startTime with
      | error e =>
        exact ⟨_, repoFactUnit_err_char cik factId unitId cf _
          (parseTimes_err_start cf _ hs)⟩
      | ok st =>
        cases he : cf.endTime with
        | error e =>
          exact ⟨_, repoFactUnit_err_char cik factId unitId cf _
            (parseTimes_err_end cf st _ hs he)⟩
        | ok en =>
          have hf : cf.filedTime = Except.error _ :=
            clientParseDate_none cf.filed "filed" hne hp
          exact ⟨_, repoFactUnit_err_char cik factId unitId cf _
            (parseTimes_err_filed cf st en _ hs he hf)⟩

/-- Witness for C1 (amended) at the S1 scenario fact of the specification:
empty `start` yields a null `start` and the other dates parse. -/
theorem repoFactUnit_c1_witness :
    repoFactUnit 320193 1 2
      { start := "", end_ := "2008-09-27", val := 5520000000,
        accn := "0001193125-09-153165", fy := 2009, fp := "Q3", form := "10-Q",
        filed := "2009-07-22", frame := "CY2008Q3I" } =
      Except.ok
        { cik := 320193, factId := 1, unitId := 2, start := none,
          end_ := ⟨2008, 9, 27⟩, val := 5520000000,
          accn := "0001193125-09-153165", fy := 2009, fp := "Q3",
          form := "10-Q", filed := ⟨2009, 7, 22⟩,
          frame := some "CY2008Q3I" } := by
  have h := (repoFactUnit_c1_amended 320193 1 2
    { start := "", end_ := "2008-09-27", val := 5520000000,
      accn := "0001193125-09-153165", fy := 2009, fp := "Q3", form := "10-Q",
      filed := "2009-07-22", frame := "CY2008Q3I" }).1
    GoDate.zero ⟨2008, 9, 27⟩ ⟨2009, 7, 22⟩ rfl rfl rfl
  simpa using h

/-- A successful `ParseUint` passes through `parseCIK`. -/
lemma itemParseCIK_some (s : String) (v : Nat) (h : parseUint32 s = some v) :
    itemParseCIK s = Except.ok v := by
  unfold itemParseCIK
  rw [h]

/-- A failing `ParseUint` makes `parseCIK` fail. -/
lemma itemParseCIK_none (s : String) (h : parseUint32 s = none) :
    itemParseCIK s = Except.error ("failed parse " ++ s ++ " as CIK") := by
  unfold itemParseCIK
  rw [h]

/-- A successful layout parse passes through `parseFiled`. -/
lemma itemParseFiled_some (s : String) (t : GoDate) (h : parseGoDate s = some t) :
    itemParseFiled s = Except.ok t := by
  unfold itemParseFiled
  rw [h]

/-- A failing layout parse makes `parseFiled` fail. -/
lemma itemParseFiled_none (s : String) (h : parseGoDate s = none) :
    itemParseFiled s = Except.error ("failed parse " ++ s ++ " as Date Filed") := by
  unfold itemParseFiled
  rw [h]

/-- C6 (counterexample): the string fields of a parsed index record are
exposed verbatim, not trimmed: a company name carrying surrounding spaces
keeps them, whereas the claim says the strings are trimmed of surrounding
whitespace. -/
theorem callIterFunc_c6_counterexample :
    callIterFunc ["123", " Apple Inc ", "10-K", "2024-01-02", "doc.txt"] =
      Except.ok
        { cik := 123, filed := ⟨2024, 1, 2⟩,
          companyName := " Apple Inc ", formType := "10-K",
          filename := "doc.txt" } ∧
    (" Apple Inc " : String) ≠ "Apple Inc" := by
  exact ⟨rfl, by decide⟩

/-- C6 (amended): a record with fewer than 5 fields is a fatal parse error
that short-circuits iteration; the CIK field parses as an unsigned 32-bit
integer and the Date Filed field with layout `"2006-01-02"`, any parse
failure being an error; the remaining fields (Company Name, Form Type,
Filename) are exposed verbatim as strings (no whitespace trimming). -/
theorem callIterFunc_c6_amended (r : List String) :
    (r.length < 5 →
      callIterFunc r = Except.error "unexpected num of fields in record") ∧
    (5 ≤ r.length → ∀ cik fd, parseUint32 (r.getD 0 "") = some cik →
      parseGoDate (r.getD 3 "") = some fd →
      callIterFunc r = Except.ok
        { cik := cik, filed := fd,
          companyName := r.getD 1 "", formType := r.getD 2 "",
          filename := r.getD 4 "" }) ∧
    (5 ≤ r.length →
      (parseUint32 (r.getD 0 "") = none ∨ parseGoDate (r.getD 3 "") = none) →
      ∃ e, callIterFunc r = Except.error e) ∧
    (∀ e rest, callIterFunc r = Except.error e →
      iterateRecords (r :: rest) = Except.error e) := by
  refine ⟨?_, ?_, ?_, ?_⟩
  · intro h
    unfold callIterFunc
    rw [if_pos h]
  · intro h5 cik fd h1 h3
    unfold callIterFunc
    rw [if_neg (Nat.not_lt.mpr h5), itemParseCIK_some _ _ h1,
      itemParseFiled_some _ _ h3]
  · intro h5 hbad
    unfold callIterFunc
    rw [if_neg (Nat.not_lt.mpr h5)]
    rcases hbad with h0 | h3
    · rw [itemParseCIK_none _ h0]
      exact ⟨_, rfl⟩
    · cases h0 : itemParseCIK (r.getD 0 "") with
      | error e => exact ⟨e, rfl⟩
      | ok cik =>
        rw [itemParseFiled_none _ h3]
        exact ⟨_, rfl⟩
  · intro e rest h
    unfold iterateRecords
    rw [h]

/-- Witness for C6 (amended) at a concrete five-field record. -/
theorem callIterFunc_c6_witness :
    callIterFunc ["1000045", "NICHOLAS FINANCIAL INC", "10-Q", "2024-01-10",
        "edgar/data/1000045/0001000045-24-000003.txt"] =
      Except.ok
        { cik := 1000045, filed := ⟨2024, 1, 10⟩,
          companyName := "NICHOLAS FINANCIAL INC", formType := "10-Q",
          filename := "edgar/data/1000045/0001000045-24-000003.txt" } := by
  have h := (callIterFunc_c6_amended ["1000045", "NICHOLAS FINANCIAL INC",
    "10-Q", "2024-01-10",
    "edgar/data/1000045/0001000045-24-000003.txt"]).2.1
    (by decide) 1000045 ⟨2024, 1, 10⟩ (by decide) (by decide)
  simpa using h

/-- Appending to the "more labels" map when the key is absent defers the
lookup to the appended part. -/
lemma lookupDescrs_append_none (ml tail : List (Nat × List Nat)) (lh : Nat)
    (h : lookupDescrs ml lh = none) :
    lookupDescrs (ml ++ tail) lh = lookupDescrs tail lh := by
  induction ml with
  | nil => rfl
  | cons a t ih =>
    unfold lookupDescrs at h ⊢
    cases hb : (a.1 == lh) with
    | true => simp [List.find?_cons, hb] at h
    | false =>
      simp only [List.cons_append, List.find?_cons, hb] at h ⊢
      exact ih h

/-- Updating the inner set of an existing key of the "more labels" map. -/
lemma lookupDescrs_map_insert (ml : List (Nat × List Nat)) (lh dh : Nat)
    (ds : List Nat) (h : lookupDescrs ml lh = some ds) :
    lookupDescrs (ml.map (fun p => if p.1 == lh then
        (p.1, if p.2.contains dh then p.2 else p.2 ++ [dh]) else p)) lh =
      some (if ds.contains dh then ds else ds ++ [dh]) := by
  induction ml with
  | nil => simp [lookupDescrs, List.find?] at h
  | cons a t ih =>
    unfold lookupDescrs at h ⊢
    cases hb : (a.1 == lh) with
    | true =>
      simp only [List.find?_cons, hb] at h
      injection h with h
      rw [List.map_cons, if_pos hb]
      simp only [List.find?_cons, hb]
      rw [h]
    | false =>
      simp only [List.find?_cons, hb] at h
      rw [List.map_cons, if_neg (by simp [hb])]
      simp only [List.find?_cons, hb]
      exact ih h

/-- After `AddMoreLabel` the pair is a member of the "more labels" set. -/
lemma hasMoreLabel_addMoreLabel (f : KnownFact) (lh dh : Nat) :
    hasMoreLabel (f.addMoreLabel lh dh) lh dh = true := by
  unfold KnownFact.addMoreLabel
  by_cases he : f.moreLabels.isEmpty
  · rw [if_pos he]
    simp [hasMoreLabel, lookupDescrs, List.find?]
  · rw [if_neg he]
    cases hld : lookupDescrs f.moreLabels lh with
    | none =>
      unfold hasMoreLabel
      rw [lookupDescrs_append_none _ _ _ hld]
      simp [lookupDescrs, List.find?]
    | some ds =>
      unfold hasMoreLabel
      rw [lookupDescrs_map_insert f.moreLabels lh dh ds hld]
      by_cases hc : dh ∈ ds
      · simp [hc]
      · simp [hc]

/-- A non-empty "more labels" membership implies the map is non-empty. -/
lemma moreLabels_ne_nil_of_hasMoreLabel (f : KnownFact) (lh dh : Nat)
    (h : hasMoreLabel f lh dh = true) : f.moreLabels.isEmpty = false := by
  cases hml : f.moreLabels with
  | nil =>
    unfold hasMoreLabel lookupDescrs at h
    rw [hml] at h
    simp [List.find?] at h
  | cons a t => simp

/-- C3: on a known fact, `AddLabel` with the primary pair never invokes the
callback; with a pair already in the "more labels" set it never invokes the
callback; with a new pair it invokes the callback exactly once, and when the
callback errors the pair is not added (so a repeated call invokes the
callback again), while on success the pair is in the set afterwards. -/
theorem knownFact_addLabel_c3 (f : KnownFact) (lh dh : Nat) (r : Option String) :
    (∀ r2 : Option String,
      KnownFact.addLabel f f.labelHash f.descrHash r2 = (none, f, false)) ∧
    (hasMoreLabel f lh dh = true →
      KnownFact.addLabel f lh dh r = (none, f, false)) ∧
    (¬(f.labelHash = lh ∧ f.descrHash = dh) → hasMoreLabel f lh dh = false →
      (KnownFact.addLabel f lh dh r).2.2 = true ∧
      (∀ e, r = some e → (KnownFact.addLabel f lh dh r).2.1 = f) ∧
      (∀ e r2, r = some e →
        (KnownFact.addLabel (KnownFact.addLabel f lh dh r).2.1 lh dh r2).2.2 =
          true) ∧
      (r = none →
        hasMoreLabel (KnownFact.addLabel f lh dh r).2.1 lh dh = true)) := by
  refine ⟨?_, ?_, ?_⟩
  · intro r2
    simp [KnownFact.addLabel]
  · intro hml
    unfold KnownFact.addLabel
    by_cases hb : (f.labelHash == lh && f.descrHash == dh) = true
    · rw [if_pos hb]
    · rw [if_neg hb, if_pos]
      rw [moreLabels_ne_nil_of_hasMoreLabel f lh dh hml, hml]
      rfl
  · intro hprim hml
    have hb1 : (f.labelHash == lh && f.descrHash == dh) = false := by
      rw [Bool.and_eq_false_iff]
      rcases Decidable.em (f.labelHash = lh) with h1 | h1
      · exact Or.inr (by simp [beq_eq_false_iff_ne]; exact fun h2 => hprim ⟨h1, h2⟩)
      · exact Or.inl (by simp [beq_eq_false_iff_ne]; exact h1)
    have hb2 : (!f.moreLabels.isEmpty && hasMoreLabel f lh dh) = false := by
      rw [hml, Bool.and_false]
    have he : ∀ r2 : Option String, KnownFact.addLabel f lh dh r2 =
        (match r2 with
         | some e => (some ("callback: " ++ e), f, true)
         | none => (none, f.addMoreLabel lh dh, true)) := by
      intro r2
      unfold KnownFact.addLabel
      rw [if_neg (by rw [hb1]; exact Bool.false_ne_true),
        if_neg (by rw [hb2]; exact Bool.false_ne_true)]
    refine ⟨?_, ?_, ?_, ?_⟩
    · rw [he r]
      cases r <;> rfl
    · intro e hre
      rw [he r, hre]
    · intro e r2 hre
      rw [he r, hre]
      show (KnownFact.addLabel f lh dh r2).2.2 = true
      rw [he r2]
      cases r2 <;> rfl
    · intro hre
      rw [he r, hre]
      exact hasMoreLabel_addMoreLabel f lh dh

/-- Witness for C3 at a concrete known fact: primary pair `(1, 2)`, the set
holding `(3, 4)`, exercised with the new pair `(5, 6)`. -/
theorem knownFact_addLabel_c3_witness :
    KnownFact.addLabel ⟨9, 1, 2, [(3, [4])]⟩ 1 2 (some "boom") =
      (none, ⟨9, 1, 2, [(3, [4])]⟩, false) ∧
    KnownFact.addLabel ⟨9, 1, 2, [(3, [4])]⟩ 3 4 (some "boom") =
      (none, ⟨9, 1, 2, [(3, [4])]⟩, false) ∧
    (KnownFact.addLabel ⟨9, 1, 2, [(3, [4])]⟩ 5 6 (some "boom")).2.2 = true ∧
    (KnownFact.addLabel ⟨9, 1, 2, [(3, [4])]⟩ 5 6 (some "boom")).2.1 =
      ⟨9, 1, 2, [(3, [4])]⟩ ∧
    hasMoreLabel
      (KnownFact.addLabel ⟨9, 1, 2, [(3, [4])]⟩ 5 6 none).2.1 5 6 = true := by
  have h12 := (knownFact_addLabel_c3 ⟨9, 1, 2, [(3, [4])]⟩ 3 4
    (some "boom")).2.1 (by decide)
  have h3 := (knownFact_addLabel_c3 ⟨9, 1, 2, [(3, [4])]⟩ 5 6
    (some "boom")).2.2 (by decide) (by decide)
  have h4 := (knownFact_addLabel_c3 ⟨9, 1, 2, [(3, [4])]⟩ 5 6 none).2.2
    (by decide) (by decide)
  exact ⟨(knownFact_addLabel_c3 ⟨9, 1, 2, [(3, [4])]⟩ 1 2 none).1 (some "boom"),
    h12, h3.1, h3.2.1 "boom" rfl, h4.2.2.2 rfl⟩

/-- Lookup after installing a key at the head of the facts map. -/
lemma factsState_fact_cons (key : String) (f : KnownFact)
    (rest : List (String × KnownFact)) :
    FactsState.fact ⟨(key, f) :: rest⟩ key = some f := by
  simp [FactsState.fact, List.find?_cons]

/-- C4: creating a fact for a key not in the cache runs the generator; on a
generator error nothing is installed (the key still misses) and the error is
returned; on success the installed entry carries the generated id and the
primary hash pair, and any later `Create` or `Fact` for the key returns that
same entry without running the generator again. -/
theorem facts_create_c4 (fs : FactsState) (key : String) (lh dh : Nat)
    (h : fs.fact key = none) :
    (∀ e, fs.create key lh dh (Except.error e) = (Except.error e, fs, true) ∧
      ((fs.create key lh dh (Except.error e)).2.1).fact key = none) ∧
    (∀ factId,
      fs.create key lh dh (Except.ok factId) =
        (Except.ok (newKnownFact factId lh dh),
          ⟨(key, newKnownFact factId lh dh) :: fs.knownFacts⟩, true) ∧
      (newKnownFact factId lh dh).id = factId ∧
      (newKnownFact factId lh dh).labelHash = lh ∧
      (newKnownFact factId lh dh).descrHash = dh ∧
      FactsState.fact ⟨(key, newKnownFact factId lh dh) :: fs.knownFacts⟩ key =
        some (newKnownFact factId lh dh) ∧
      (∀ lh2 dh2 gen2,
        FactsState.create ⟨(key, newKnownFact factId lh dh) :: fs.knownFacts⟩
            key lh2 dh2 gen2 =
          (Except.ok (newKnownFact factId lh dh),
            ⟨(key, newKnownFact factId lh dh) :: fs.knownFacts⟩, false))) := by
  constructor
  · intro e
    unfold FactsState.create
    rw [h]
    exact ⟨rfl, h⟩
  · intro factId
    refine ⟨?_, rfl, rfl, rfl, factsState_fact_cons key _ fs.knownFacts, ?_⟩
    · unfold FactsState.create
      rw [h]
    · intro lh2 dh2 gen2
      unfold FactsState.create
      rw [factsState_fact_cons key _ fs.knownFacts]

/-- Witness for C4 at an initially empty cache and the key `"us-gaap:Cash"`. -/
theorem facts_create_c4_witness :
    FactsState.create ⟨[]⟩ "us-gaap:Cash" 11 13 (Except.error "db down") =
      (Except.error "db down", ⟨[]⟩, true) ∧
    FactsState.create ⟨[]⟩ "us-gaap:Cash" 11 13 (Except.ok 5) =
      (Except.ok (newKnownFact 5 11 13),
        ⟨[("us-gaap:Cash", newKnownFact 5 11 13)]⟩, true) ∧
    FactsState.create ⟨[("us-gaap:Cash", newKnownFact 5 11 13)]⟩
        "us-gaap:Cash" 17 19 (Except.error "not run") =
      (Except.ok (newKnownFact 5 11 13),
        ⟨[("us-gaap:Cash", newKnownFact 5 11 13)]⟩, false) := by
  have h := facts_create_c4 ⟨[]⟩ "us-gaap:Cash" 11 13 rfl
  exact ⟨(h.1 "db down").1, (h.2 5).1,
    (h.2 5).2.2.2.2.2 17 19 (Except.error "not run")⟩

/-- Go `uint32` conversion is the identity below `2^32`. -/
lemma goUInt32_ofNat (n : Nat) (h : n < 2 ^ 32) : goUInt32 (n : Int) = n := by
  unfold goUInt32
  omega

/-- Go `uint32(-1)` is `4294967295`. -/
lemma goUInt32_neg_one : goUInt32 (-1) = 2 ^ 32 - 1 := by
  unfold goUInt32
  decide

/-- The index search returns the Go sentinel `-1` when no row is filed after
the boundary. -/
lemma goIndexAfter_none (facts : List RepoFactUnit) (lf : GoDate)
    (h : ∀ f ∈ facts, f.filed.after lf = false) :
    goIndexAfter facts lf = -1 := by
  unfold goIndexAfter
  rw [List.findIdx?_eq_none_iff.mpr h]

/-- The no-change branch of `repoFactsUpdate`. -/
lemma repoFactsUpdate_noop (lf : GoDate) (lastCnt : Nat)
    (freshFacts : List RepoFactUnit)
    (hmod : lastCnt = freshFacts.length % 2 ^ 32) :
    repoFactsUpdate lf lastCnt freshFacts = some (GoDate.zero, []) := by
  simp only [repoFactsUpdate]
  rw [if_pos hmod]

/-- The no-change branch of `updateCompanyFacts` performs no store call. -/
lemma updateCompanyFacts_noop (cik : Nat) (lf : GoDate) (lastCnt : Nat)
    (freshFacts : List RepoFactUnit)
    (hmod : lastCnt = freshFacts.length % 2 ^ 32) :
    updateCompanyFacts cik lf lastCnt freshFacts = some StoreOp.noop := by
  unfold updateCompanyFacts
  rw [repoFactsUpdate_noop lf lastCnt freshFacts hmod]
  rfl

/-- The append branch: the first index filed strictly after the boundary
equals the stored count, so the suffix from there is bulk-copied. -/
lemma updateCompanyFacts_copy_path (cik : Nat) (lf : GoDate) (lastCnt : Nat)
    (freshFacts : List RepoFactUnit)
    (hmod : lastCnt ≠ freshFacts.length % 2 ^ 32)
    (hfind : freshFacts.findIdx? (fun f => f.filed.after lf) = some lastCnt)
    (hlt : lastCnt < 2 ^ 32) :
    updateCompanyFacts cik lf lastCnt freshFacts =
      some (StoreOp.copy (freshFacts.length - lastCnt)
        (freshFacts.drop lastCnt)) := by
  have hi : lastCnt < freshFacts.length :=
    (List.findIdx?_eq_some_iff_findIdx_eq.mp hfind).1
  have e0 : goIndexAfter freshFacts lf = (lastCnt : Int) := by
    unfold goIndexAfter
    rw [hfind]
  have e1 : repoFactsUpdate lf lastCnt freshFacts =
      some (GoDate.zero, freshFacts.drop lastCnt) := by
    simp only [repoFactsUpdate]
    rw [if_neg hmod, e0, goUInt32_ofNat lastCnt hlt, if_pos rfl,
      if_neg (by omega : ¬ ((lastCnt : Int) < 0))]
    simp
  have hlen0 : ¬ ((freshFacts.drop lastCnt).length = 0) := by
    simp only [List.length_drop]
    omega
  simp only [updateCompanyFacts, e1]
  rw [if_neg hlen0, if_pos (by decide : GoDate.zero.isZero = true),
    List.length_drop]

/-- The replace branch: the classification neither no-ops nor appends, so the
whole fresh list goes through `ReplaceFactUnits`. -/
lemma updateCompanyFacts_replace_path (cik : Nat) (lf : GoDate) (lastCnt : Nat)
    (freshFacts : List RepoFactUnit)
    (hlf : lf ≠ GoDate.zero) (hne : freshFacts ≠ [])
    (hmod : lastCnt ≠ freshFacts.length % 2 ^ 32)
    (hidx : goUInt32 (goIndexAfter freshFacts lf) ≠ lastCnt) :
    updateCompanyFacts cik lf lastCnt freshFacts =
      some (StoreOp.replace cik lf freshFacts.length freshFacts) := by
  have e1 : repoFactsUpdate lf lastCnt freshFacts = some (lf, freshFacts) := by
    simp only [repoFactsUpdate]
    rw [if_neg hmod, if_neg hidx]
  have hlen0 : ¬ (freshFacts.length = 0) := by
    simpa [List.length_eq_zero] using hne
  have hz : ¬ (lf.isZero = true) := by
    simp [GoDate.isZero, hlf]
  simp only [updateCompanyFacts, e1]
  rw [if_neg hlen0, if_neg hz]

/-- C2 (counterexample): with an empty fresh list and a non-zero stored
boundary count (`lastCnt = 3 ≠ len(fresh) = 0`) the per-company update
performs no store call at all, whereas the claim requires
`ReplaceFactUnits(cik, LF, 0, next)` in every case other than no-op/copy. -/
theorem updateCompanyFacts_c2_counterexample :
    updateCompanyFacts 320193 ⟨2024, 1, 2⟩ 3 [] = some StoreOp.noop ∧
    updateCompanyFacts 320193 ⟨2024, 1, 2⟩ 3 [] ≠
      some (StoreOp.replace 320193 ⟨2024, 1, 2⟩ 0 []) := by
  constructor <;> decide

/-- C2 (amended): for a CIK with stored boundary count `lastCnt` (a `uint32`
below the sentinel) and fresh list sorted by filed ascending containing only
rows filed at or after the boundary `lf`: equal counts mean no store write;
when the first index filed strictly after `lf` equals `lastCnt`, exactly the
suffix from that index is bulk-copied; in every other case with a non-empty
fresh list the entire list goes through `ReplaceFactUnits(cik, lf, len, next)`;
and with an empty fresh list (counts differing) no store call happens. -/
theorem updateCompanyFacts_c2_amended (cik : Nat) (lf : GoDate) (lastCnt : Nat)
    (freshFacts : List RepoFactUnit)
    (hlf : lf ≠ GoDate.zero)
    (hlen : freshFacts.length < 2 ^ 32)
    (hcnt : lastCnt < 2 ^ 32)
    (hge : ∀ f ∈ freshFacts, f.filed.before lf = false)
    (hsorted : freshFacts.Chain' (fun a b => b.filed.before a.filed = false)) :
    (lastCnt = freshFacts.length →
      updateCompanyFacts cik lf lastCnt freshFacts = some StoreOp.noop) ∧
    (lastCnt ≠ freshFacts.length →
      freshFacts.findIdx? (fun f => f.filed.after lf) = some lastCnt →
      updateCompanyFacts cik lf lastCnt freshFacts =
        some (StoreOp.copy (freshFacts.length - lastCnt)
          (freshFacts.drop lastCnt))) ∧
    (lastCnt ≠ freshFacts.length → freshFacts ≠ [] →
      lastCnt ≠ 2 ^ 32 - 1 →
      freshFacts.findIdx? (fun f => f.filed.after lf) ≠ some lastCnt →
      updateCompanyFacts cik lf lastCnt freshFacts =
        some (StoreOp.replace cik lf freshFacts.length freshFacts)) ∧
    (freshFacts = [] → lastCnt ≠ 0 → lastCnt ≠ 2 ^ 32 - 1 →
      updateCompanyFacts cik lf lastCnt freshFacts = some StoreOp.noop) := by
  refine ⟨?_, ?_, ?_, ?_⟩
  · intro h1
    exact updateCompanyFacts_noop cik lf lastCnt freshFacts
      (by rw [Nat.mod_eq_of_lt hlen]; exact h1)
  · intro hne hfind
    exact updateCompanyFacts_copy_path cik lf lastCnt freshFacts
      (by rw [Nat.mod_eq_of_lt hlen]; exact hne) hfind hcnt
  · intro hne hnonempty hcnt2 hfind
    refine updateCompanyFacts_replace_path cik lf lastCnt freshFacts hlf
      hnonempty (by rw [Nat.mod_eq_of_lt hlen]; exact hne) ?_
    cases hidx : freshFacts.findIdx? (fun f => f.filed.after lf) with
    | none =>
      have : goIndexAfter freshFacts lf = -1 := by
        unfold goIndexAfter
        rw [hidx]
      rw [this, goUInt32_neg_one]
      exact fun h => hcnt2 h.symm
    | some i =>
      have hi : i < freshFacts.length :=
        (List.findIdx?_eq_some_iff_findIdx_eq.mp hidx).1
      have : goIndexAfter freshFacts lf = (i : Int) := by
        unfold goIndexAfter
        rw [hidx]
      rw [this, goUInt32_ofNat i (by omega)]
      intro h
      exact hfind (by rw [hidx, h])
  · intro hempty hcnt0 hcnt2
    subst hempty
    have hgi : goIndexAfter [] lf = -1 := rfl
    have e1 : repoFactsUpdate lf lastCnt [] = some (lf, []) := by
      simp only [repoFactsUpdate]
      rw [if_neg (by simpa using hcnt0), hgi, goUInt32_neg_one,
        if_neg (fun h => hcnt2 h.symm)]
    simp only [updateCompanyFacts, e1]
    rfl

/-- Fresh fact filed at 2024-01-02 (the boundary day), for the C2 witness. -/
def c2RowOld : RepoFactUnit :=
  ⟨320193, 1, 2, none, ⟨2024, 1, 2⟩, 5, "0001193125-24-000001", 2024, "Q1",
    "10-Q", ⟨2024, 1, 2⟩, none⟩

/-- Fresh fact filed at 2024-01-03 (one day after the boundary), for the C2
witness. -/
def c2RowNew : RepoFactUnit :=
  ⟨320193, 1, 2, none, ⟨2024, 1, 3⟩, 6, "0001193125-24-000002", 2024, "Q1",
    "10-Q", ⟨2024, 1, 3⟩, none⟩

/-- Witness for C2 (amended) at the S5 scenario: three stored rows at the
boundary day, a fresh list of five rows (three at the boundary, two later):
the two new rows are appended by `CopyFactUnits`. -/
theorem updateCompanyFacts_c2_witness :
    updateCompanyFacts 320193 ⟨2024, 1, 2⟩ 3
        [c2RowOld, c2RowOld, c2RowOld, c2RowNew, c2RowNew] =
      some (StoreOp.copy 2 [c2RowNew, c2RowNew]) := by
  have h := (updateCompanyFacts_c2_amended 320193 ⟨2024, 1, 2⟩ 3
    [c2RowOld, c2RowOld, c2RowOld, c2RowNew, c2RowNew]
    (by decide) (by decide) (by decide) (by decide)
    (by simp only [List.chain'_cons, List.chain'_singleton]; decide)).2.1
    (by decide) (by decide)
  exact h

/-- C9 (counterexample): with an empty fresh list (so the index search
returns `-1`) and `lastCnt = 2 ≠ 0 = len(fresh)`, no `ReplaceFactUnits` call
happens — the update is a no-op — whereas the claim says the Replace path is
always taken in this situation. -/
theorem updateCompanyFacts_c9_counterexample :
    goIndexAfter [] ⟨2024, 1, 10⟩ = -1 ∧
    updateCompanyFacts 1000045 ⟨2024, 1, 10⟩ 2 [] = some StoreOp.noop ∧
    updateCompanyFacts 1000045 ⟨2024, 1, 10⟩ 2 [] ≠
      some (StoreOp.replace 1000045 ⟨2024, 1, 10⟩ 0 []) := by
  refine ⟨by decide, by decide, by decide⟩

/-- C9 (amended): when the fresh list is non-empty, none of its rows is filed
strictly after the boundary (the index search returns the sentinel `-1`,
which the `uint32` conversion turns into `4294967295`), and `lastCnt` (below
the sentinel value) differs from `len(fresh)`, the classification always
takes the Replace path: `ReplaceFactUnits(cik, lf, len(fresh), next)` is
called and `CopyFactUnits` is not. -/
theorem updateCompanyFacts_c9_amended (cik : Nat) (lf : GoDate) (lastCnt : Nat)
    (freshFacts : List RepoFactUnit)
    (hlf : lf ≠ GoDate.zero)
    (hne : freshFacts ≠ [])
    (hlen : freshFacts.length < 2 ^ 32)
    (hcnt : lastCnt < 2 ^ 32 - 1)
    (hnoafter : ∀ f ∈ freshFacts, f.filed.after lf = false)
    (hdiff : lastCnt ≠ freshFacts.length) :
    goIndexAfter freshFacts lf = -1 ∧
    goUInt32 (goIndexAfter freshFacts lf) = 2 ^ 32 - 1 ∧
    updateCompanyFacts cik lf lastCnt freshFacts =
      some (StoreOp.replace cik lf freshFacts.length freshFacts) := by
  have hidx : goIndexAfter freshFacts lf = -1 :=
    goIndexAfter_none freshFacts lf hnoafter
  refine ⟨hidx, by rw [hidx]; exact goUInt32_neg_one, ?_⟩
  refine updateCompanyFacts_replace_path cik lf lastCnt freshFacts hlf hne
    (by rw [Nat.mod_eq_of_lt hlen]; exact hdiff) ?_
  rw [hidx, goUInt32_neg_one]
  omega

/-- Fresh fact filed at 2024-01-10 (the boundary day), for the C9 witness. -/
def c9Row : RepoFactUnit :=
  ⟨1000045, 3, 4, none, ⟨2024, 1, 10⟩, 7, "0001000045-24-000003", 2024, "Q2",
    "10-Q", ⟨2024, 1, 10⟩, none⟩

/-- Witness for C9 (amended): two fresh rows, both at the boundary day, with
three rows stored: the whole fresh list is replaced. -/
theorem updateCompanyFacts_c9_witness :
    updateCompanyFacts 1000045 ⟨2024, 1, 10⟩ 3 [c9Row, c9Row] =
      some (StoreOp.replace 1000045 ⟨2024, 1, 10⟩ 2 [c9Row, c9Row]) := by
  have h := (updateCompanyFacts_c9_amended 1000045 ⟨2024, 1, 10⟩ 3
    [c9Row, c9Row] (by decide) (by decide) (by decide) (by decide) (by decide)
    (by decide)).2.2
  exact h

/-- Sort rank of a company under `cmpCompany`: loaded companies first. -/
def companyRank (lastFiled : List Nat) (c : CompanyTicker) : Nat :=
  if loadedCompany lastFiled c.cik then 0 else 1

/-- The comparator-induced order is the lexicographic order on
(rank, CIK). -/
lemma leCompany_iff (lf : List Nat) (a b : CompanyTicker) :
    leCompany lf a b = true ↔
      (companyRank lf a < companyRank lf b ∨
        (companyRank lf a = companyRank lf b ∧ a.cik ≤ b.cik)) := by
  unfold leCompany cmpCompany cmpNat companyRank
  by_cases ha : loadedCompany lf a.cik <;> by_cases hb : loadedCompany lf b.cik <;>
    simp [ha, hb] <;> (try split_ifs) <;> omega

/-- Transitivity of the comparator-induced order. -/
lemma leCompany_trans (lf : List Nat) (a b c : CompanyTicker)
    (h1 : leCompany lf a b = true) (h2 : leCompany lf b c = true) :
    leCompany lf a c = true := by
  rw [leCompany_iff] at h1 h2 ⊢
  omega

/-- Totality of the comparator-induced order. -/
lemma leCompany_total (lf : List Nat) (a b : CompanyTicker) :
    leCompany lf a b || leCompany lf b a := by
  rw [Bool.or_eq_true, leCompany_iff, leCompany_iff]
  omega

/-- Nothing an unloaded company precedes (in the sort order) is loaded. -/
lemma unloaded_of_le (lf : List Nat) (a b : CompanyTicker)
    (ha : loadedCompany lf a.cik = false) (h : leCompany lf a b = true) :
    loadedCompany lf b.cik = false := by
  rw [leCompany_iff] at h
  unfold companyRank at h
  cases hb : loadedCompany lf b.cik
  · rfl
  · rw [ha, hb] at h
    simp at h

/-- The compaction tail is a sublist of its input. -/
lemma compactGo_sublist (xs : List CompanyTicker) :
    ∀ prev, List.Sublist (compactGo prev xs) xs := by
  induction xs with
  | nil => intro prev; exact List.Sublist.refl []
  | cons x t ih =>
    intro prev
    unfold compactGo
    by_cases h : x.cik = prev.cik
    · rw [if_pos h]
      exact List.Sublist.cons x (ih prev)
    · rw [if_neg h]
      exact List.Sublist.cons₂ x (ih x)

/-- Compaction yields a sublist. -/
lemma compactCIK_sublist (l : List CompanyTicker) :
    List.Sublist (compactCIK l) l := by
  cases l with
  | nil => exact List.Sublist.refl []
  | cons x t => exact List.Sublist.cons₂ x (compactGo_sublist t x)

/-- Every CIK of the input of the compaction tail survives, either as the
previous kept element or inside the output. -/
lemma compactGo_cover (xs : List CompanyTicker) :
    ∀ prev c, c ∈ xs →
      c.cik = prev.cik ∨ ∃ x, x ∈ compactGo prev xs ∧ x.cik = c.cik := by
  induction xs with
  | nil => intro prev c hc; simp at hc
  | cons a t ih =>
    intro prev c hc
    unfold compactGo
    by_cases h : a.cik = prev.cik
    · rw [if_pos h]
      rcases List.mem_cons.mp hc with rfl | hct
      · exact Or.inl h
      · exact ih prev c hct
    · rw [if_neg h]
      rcases List.mem_cons.mp hc with rfl | hct
      · exact Or.inr ⟨c, List.mem_cons_self c _, rfl⟩
      · rcases ih a c hct with h1 | ⟨x, hx, hcx⟩
        · exact Or.inr ⟨a, List.mem_cons_self a _, h1.symm⟩
        · exact Or.inr ⟨x, List.mem_cons_of_mem a hx, hcx⟩

/-- Every CIK of the input survives compaction. -/
lemma compactCIK_cover (l : List CompanyTicker) (c : CompanyTicker)
    (hc : c ∈ l) : ∃ x, x ∈ compactCIK l ∧ x.cik = c.cik := by
  cases l with
  | nil => simp at hc
  | cons a t =>
    unfold compactCIK
    rcases List.mem_cons.mp hc with rfl | hct
    · exact ⟨c, List.mem_cons_self c _, rfl⟩
    · rcases compactGo_cover t a c hct with h1 | ⟨x, hx, hcx⟩
      · exact ⟨a, List.mem_cons_self a _, h1.symm⟩
      · exact ⟨x, List.mem_cons_of_mem a hx, hcx⟩

/-- Adjacent elements of the compaction output have distinct CIKs. -/
lemma compactGo_chain' (xs : List CompanyTicker) :
    ∀ prev, List.Chain' (fun a b => a.cik ≠ b.cik) (prev :: compactGo prev xs) := by
  induction xs with
  | nil =>
    intro prev
    unfold compactGo
    simp
  | cons a t ih =>
    intro prev
    unfold compactGo
    by_cases h : a.cik = prev.cik
    · rw [if_pos h]
      exact ih prev
    · rw [if_neg h]
      rw [List.chain'_cons]
      exact ⟨fun he => h he.symm, ih a⟩

/-- Adjacent elements after compaction have distinct CIKs. -/
lemma compactCIK_chain' (l : List CompanyTicker) :
    List.Chain' (fun a b => a.cik ≠ b.cik) (compactCIK l) := by
  cases l with
  | nil => simp [compactCIK]
  | cons a t => exact compactGo_chain' t a

/-- A member satisfying the searched predicate lies in the suffix starting at
the found index. -/
lemma mem_drop_of_findIdx {α : Type} (p : α → Bool) :
    ∀ (l : List α) (i : Nat), l.findIdx? p = some i →
      ∀ x ∈ l, p x = true → x ∈ l.drop i := by
  intro l
  induction l with
  | nil => intro i h; simp at h
  | cons a t ih =>
    intro i h x hx hpx
    rw [List.findIdx?_cons] at h
    by_cases hp : p a
    · rw [if_pos hp] at h
      injection h with h
      subst h
      simpa using hx
    · rw [if_neg hp] at h
      rw [List.findIdx?_succ] at h
      obtain ⟨j, hj, hji⟩ := Option.map_eq_some'.mp h
      subst hji
      rcases List.mem_cons.mp hx with rfl | hxt
      · exact absurd hpx hp
      · simpa [List.drop_succ_cons] using ih j hj x hxt hpx

/-- On an all-unloaded, sorted, adjacent-distinct list the CIKs strictly
increase between neighbours. -/
lemma chain'_cikLt (lf : List Nat) :
    ∀ l : List CompanyTicker,
      (∀ x ∈ l, loadedCompany lf x.cik = false) →
      l.Pairwise (fun a b => leCompany lf a b = true) →
      List.Chain' (fun a b => a.cik ≠ b.cik) l →
      List.Chain' (fun a b => a.cik < b.cik) l := by
  intro l
  induction l with
  | nil => intro _ _ _; simp
  | cons a t ih =>
    intro hunl hpw hch
    rw [List.chain'_cons'] at hch ⊢
    refine ⟨?_, ih (fun x hx => hunl x (List.mem_cons_of_mem a hx))
      (List.pairwise_cons.mp hpw).2 hch.2⟩
    intro y hy
    have hyt : y ∈ t := List.mem_of_mem_head? hy
    have hle : leCompany lf a y = true := (List.pairwise_cons.mp hpw).1 y hyt
    have hne : a.cik ≠ y.cik := hch.1 y hy
    have ha : loadedCompany lf a.cik = false := hunl a (List.mem_cons_self a t)
    have hyl : loadedCompany lf y.cik = false :=
      hunl y (List.mem_cons_of_mem a hyt)
    rw [leCompany_iff] at hle
    unfold companyRank at hle
    rw [ha, hyl] at hle
    simp at hle
    omega

/-- C8: after preload, the retained `unknown` slice holds exactly the fetched
tickers whose CIK is absent from `lastFiled` — no retained element is loaded,
every retained element is a fetched ticker, every unknown fetched CIK is
represented — with duplicate CIKs compacted to one entry and the slice
strictly ascending by CIK. -/
theorem unknownCompanies_c8 (lf : List Nat) (companies : List CompanyTicker) :
    (∀ c ∈ unknownCompanies lf companies, loadedCompany lf c.cik = false) ∧
    (∀ c ∈ unknownCompanies lf companies, c ∈ companies) ∧
    (∀ c ∈ companies, loadedCompany lf c.cik = false →
      ∃ x, x ∈ unknownCompanies lf companies ∧ x.cik = c.cik) ∧
    ((unknownCompanies lf companies).map (fun c => c.cik)).Pairwise (· < ·) := by
  have hperm : List.Perm (companies.mergeSort (leCompany lf)) companies :=
    List.mergeSort_perm companies _
  have hsort_ms : (companies.mergeSort (leCompany lf)).Pairwise
      (fun a b => leCompany lf a b = true) := by
    have h : (companies.mergeSort (leCompany lf)).Pairwise
        (fun a b => leCompany lf a b = true) :=
      List.sorted_mergeSort
        (fun a b c h1 h2 => leCompany_trans lf a b c h1 h2)
        (fun a b => leCompany_total lf a b) companies
    exact h
  have hsort_cs : (sortCompanies lf companies).Pairwise
      (fun a b => leCompany lf a b = true) :=
    List.Pairwise.sublist (compactCIK_sublist _) hsort_ms
  have hchain_cs : List.Chain' (fun a b => a.cik ≠ b.cik)
      (sortCompanies lf companies) := compactCIK_chain' _
  have hsubset : ∀ c ∈ sortCompanies lf companies, c ∈ companies := fun c hc =>
    hperm.subset ((compactCIK_sublist _).subset hc)
  have hcover : ∀ c ∈ companies,
      ∃ x, x ∈ sortCompanies lf companies ∧ x.cik = c.cik := fun c hc =>
    compactCIK_cover _ c (hperm.mem_iff.mpr hc)
  have hu : unknownCompanies lf companies =
      (match (sortCompanies lf companies).findIdx?
          (fun c => !loadedCompany lf c.cik) with
       | none => []
       | some i => (sortCompanies lf companies).drop i) := rfl
  rw [hu]
  cases hfi : (sortCompanies lf companies).findIdx?
      (fun c => !loadedCompany lf c.cik) with
  | none =>
    refine ⟨by simp, by simp, ?_, by simp⟩
    intro c hc hcl
    obtain ⟨x, hxs, hxcik⟩ := hcover c hc
    have := List.findIdx?_eq_none_iff.mp hfi x hxs
    rw [Bool.not_eq_false'] at this
    rw [hxcik, hcl] at this
    exact absurd this (by simp)
  | some i =>
    obtain ⟨hilen, hpi, -⟩ := List.findIdx?_eq_some_iff_getElem.mp hfi
    have hdrop : (sortCompanies lf companies).drop i =
        (sortCompanies lf companies).get ⟨i, hilen⟩ ::
          (sortCompanies lf companies).drop (i + 1) := by
      rw [List.drop_eq_getElem_cons hilen]
      rfl
    have hpw_drop : ((sortCompanies lf companies).drop i).Pairwise
        (fun a b => leCompany lf a b = true) :=
      List.Pairwise.sublist (List.drop_sublist i _) hsort_cs
    have hhead_unl :
        loadedCompany lf ((sortCompanies lf companies).get ⟨i, hilen⟩).cik =
          false := by
      simpa using hpi
    have hunl : ∀ c ∈ (sortCompanies lf companies).drop i,
        loadedCompany lf c.cik = false := by
      intro x hx
      rw [hdrop] at hx hpw_drop
      rcases List.mem_cons.mp hx with rfl | hxt
      · exact hhead_unl
      · exact unloaded_of_le lf _ x hhead_unl
          ((List.pairwise_cons.mp hpw_drop).1 x hxt)
    refine ⟨hunl, ?_, ?_, ?_⟩
    · intro c hc
      exact hsubset c ((List.drop_sublist i _).subset hc)
    · intro c hc hcl
      obtain ⟨x, hxs, hxcik⟩ := hcover c hc
      have hxunl : loadedCompany lf x.cik = false := by rw [hxcik]; exact hcl
      have hpx : (fun c => !loadedCompany lf c.cik) x = true := by
        simp [hxunl]
      exact ⟨x, mem_drop_of_findIdx _ _ i hfi x hxs hpx, hxcik⟩
    · have hch_ne : List.Chain' (fun a b => a.cik ≠ b.cik)
          ((sortCompanies lf companies).drop i) :=
        hchain_cs.suffix (List.drop_suffix i _)
      have hch_lt := chain'_cikLt lf _ hunl hpw_drop hch_ne
      haveI : IsTrans CompanyTicker (fun a b => a.cik < b.cik) :=
        ⟨fun _ _ _ h1 h2 => Nat.lt_trans h1 h2⟩
      exact List.pairwise_map.mpr (List.chain'_iff_pairwise.mp hch_lt)

/-- Witness for C8: tickers `[⟨3⟩, ⟨5⟩, ⟨3⟩, ⟨9⟩]` with CIK 5 already loaded:
the retained slice holds exactly one entry per unknown CIK, ascending. -/
theorem unknownCompanies_c8_witness :
    ∃ x, x ∈ unknownCompanies [5]
        [⟨3, "t3", "C3"⟩, ⟨5, "t5", "C5"⟩, ⟨3, "t3b", "C3b"⟩, ⟨9, "t9", "C9"⟩] ∧
      x.cik = 9 := by
  exact (unknownCompanies_c8 [5]
    [⟨3, "t3", "C3"⟩, ⟨5, "t5", "C5"⟩, ⟨3, "t3b", "C3b"⟩,
      ⟨9, "t9", "C9"⟩]).2.2.1 ⟨9, "t9", "C9"⟩ (by decide) (by decide)

end Edgar

